import Mathlib

/-!
Shallow embedding of the `pixie` Cloudflare worker (`src/index.ts`) in Lean 4.

The worker issues tracking pixels, serves a 1×1 transparent GIF on pixel
loads while recording anonymized open events in a key-value store, and
renders token-authorized reports as JSON or CSV.

Modelling conventions:
* JS strings are Lean `String`s; `null`/`undefined`/absent values are `Option`.
* JS numbers used here are integers (counters, lengths), modelled as `Nat`.
* The KV store is an association list from keys to structured values;
  `put` overwrites the binding for an existing key.
* Randomness and wall-clock time (`randomHex`, `Date.now()`,
  `new Date().toISOString()`) are externalized as explicit parameters.
* `crypto.subtle.digest("SHA-256", …)` is embedded as a concrete,
  executable SHA-256 implementation (FIPS 180-4) over byte lists.
-/

namespace Pixie

/-! ## Generic string helpers (JS semantics) -/

/-- JS `String.prototype.includes` specialized to a single character. -/
def strContainsChar (s : String) (c : Char) : Bool :=
  s.data.any (fun a => a == c)

/-- Boolean prefix test on character lists. -/
def isPrefixB : List Char → List Char → Bool
  | [], _ => true
  | _ :: _, [] => false
  | a :: as, b :: bs => a == b && isPrefixB as bs

/-- Boolean infix (contiguous substring) test on character lists. -/
def isInfixB (n : List Char) : List Char → Bool
  | [] => isPrefixB n []
  | c :: cs => isPrefixB n (c :: cs) || isInfixB n cs

/-- Whether `needle` occurs as a contiguous substring of `hay`
(character-list infix). -/
def occursIn (needle hay : String) : Bool :=
  isInfixB needle.data hay.data

/-- JS `s.slice(0, e)` for a possibly negative end index `e`. -/
def jsSliceTo (s : String) (e : Int) : String :=
  if e < 0 then String.mk (s.data.take (s.data.length - e.natAbs))
  else String.mk (s.data.take e.toNat)

/-- Lower-casing character by character (used to model the `/i` regex flag). -/
def strLower (s : String) : String :=
  String.mk (s.data.map Char.toLower)

/-- JS `String.prototype.split` with a one-character separator, on character
lists: `"" → [""]`, separators at the ends produce empty segments. -/
def splitOnChar (sep : Char) : List Char → List (List Char)
  | [] => [[]]
  | c :: cs =>
    if c = sep then [] :: splitOnChar sep cs
    else
      match splitOnChar sep cs with
      | [] => [[c]]
      | g :: gs => (c :: g) :: gs

/-- JS `s.split(sep)` for a one-character separator. -/
def jsSplit (s : String) (sep : Char) : List String :=
  (splitOnChar sep s.data).map String.mk

/-! ## SHA-256 (embedding of `sha256Hex`, src/index.ts lines 223-229)

`sha256Hex` UTF-8-encodes the input, digests it with SHA-256 and renders
the 32 digest bytes as lowercase hex. The digest itself is the standard
FIPS 180-4 algorithm, written over `Nat` with explicit `% 2^32`. -/

def M32 : Nat := 4294967296

def add32 (a b : Nat) : Nat := (a + b) % M32

/-- Rotate a 32-bit word right by `n` (0 < n < 32). -/
def rotr32 (x n : Nat) : Nat := ((x >>> n) ||| (x <<< (32 - n))) % M32

def bSig0 (x : Nat) : Nat := (rotr32 x 2) ^^^ (rotr32 x 13) ^^^ (rotr32 x 22)
def bSig1 (x : Nat) : Nat := (rotr32 x 6) ^^^ (rotr32 x 11) ^^^ (rotr32 x 25)
def sSig0 (x : Nat) : Nat := (rotr32 x 7) ^^^ (rotr32 x 18) ^^^ (x >>> 3)
def sSig1 (x : Nat) : Nat := (rotr32 x 17) ^^^ (rotr32 x 19) ^^^ (x >>> 10)

def chFn (x y z : Nat) : Nat := (x &&& y) ^^^ ((x ^^^ 4294967295) &&& z)
def majFn (x y z : Nat) : Nat := (x &&& y) ^^^ (x &&& z) ^^^ (y &&& z)

/-- The 64 SHA-256 round constants of FIPS 180-4, written in decimal. -/
def sha256K : List Nat :=
  [1116352408, 1899447441, 3049323471, 3921009573, 961987163,
   1508970993, 2453635748, 2870763221, 3624381080, 310598401,
   607225278, 1426881987, 1925078388, 2162078206, 2614888103,
   3248222580, 3835390401, 4022224774, 264347078, 604807628,
   770255983, 1249150122, 1555081692, 1996064986, 2554220882,
   2821834349, 2952996808, 3210313671, 3336571891, 3584528711,
   113926993, 338241895, 666307205, 773529912, 1294757372,
   1396182291, 1695183700, 1986661051, 2177026350, 2456956037,
   2730485921, 2820302411, 3259730800, 3345764771, 3516065817,
   3600352804, 4094571909, 275423344, 430227734, 506948616,
   659060556, 883997877, 958139571, 1322822218, 1537002063,
   1747873779, 1955562222, 2024104815, 2227730452, 2361852424,
   2428436474, 2756734187, 3204031479, 3329325298]

/-- The 8 SHA-256 initial hash words of FIPS 180-4, in decimal. -/
def sha256H0 : List Nat :=
  [1779033703, 3144134277, 1013904242, 2773480762,
   1359893119, 2600822924, 528734635, 1541459225]

/-- Iterate a function `n` times. -/
def iterN (f : α → α) : Nat → α → α
  | 0, a => a
  | n + 1, a => iterN f n (f a)

/-- One step of message-schedule extension: append W[t] from W[t-2..t-16]. -/
def wStep (w : List Nat) : List Nat :=
  let t := w.length
  w ++ [add32 (add32 (sSig1 (w.getD (t - 2) 0)) (w.getD (t - 7) 0))
              (add32 (sSig0 (w.getD (t - 15) 0)) (w.getD (t - 16) 0))]

/-- Extend the 16 block words to the 64-entry message schedule. -/
def buildW (w16 : List Nat) : List Nat := iterN wStep 48 w16

/-- One SHA-256 compression round on state [a,b,c,d,e,f,g,h]. -/
def sha256Round (kt wt : Nat) (s : List Nat) : List Nat :=
  match s with
  | [a, b, c, d, e, f, g, h] =>
    let t1 := add32 (add32 h (bSig1 e)) (add32 (chFn e f g) (add32 kt wt))
    let t2 := add32 (bSig0 a) (majFn a b c)
    [add32 t1 t2, a, b, c, add32 d t1, e, f, g]
  | other => other

/-- Pack 4 big-endian bytes into a 32-bit word, over the whole block. -/
def toWords : List Nat → List Nat
  | b0 :: b1 :: b2 :: b3 :: rest =>
    (b0 * 16777216 + b1 * 65536 + b2 * 256 + b3) :: toWords rest
  | _ => []

/-- Compress one 64-byte block into the running hash state. -/
def sha256Compress (h : List Nat) (block : List Nat) : List Nat :=
  let w := buildW (toWords block)
  let final := (sha256K.zip w).foldl (fun s kw => sha256Round kw.1 kw.2 s) h
  h.zipWith add32 final

/-- Split a byte list into 64-byte chunks (structural recursion on a fuel
bound so that the definition reduces inside the kernel). -/
def chunks64Fuel : Nat → List Nat → List (List Nat)
  | 0, _ => []
  | _, [] => []
  | fuel + 1, b :: bs => ((b :: bs).take 64) :: chunks64Fuel fuel ((b :: bs).drop 64)

/-- Split a byte list into 64-byte chunks. -/
def chunks64 (bs : List Nat) : List (List Nat) :=
  chunks64Fuel bs.length bs

/-- Big-endian bytes of `n`, `k` bytes wide. -/
def beBytes (n k : Nat) : List Nat :=
  (List.range k).map (fun i => (n >>> (8 * (k - 1 - i))) &&& 255)

/-- SHA-256 padding: 0x80, zeros to 56 mod 64, then the 64-bit bit length. -/
def sha256Pad (msg : List Nat) : List Nat :=
  let l := msg.length
  let zeros := (64 - ((l + 9) % 64)) % 64
  msg ++ [128] ++ List.replicate zeros 0 ++ beBytes (l * 8) 8

/-- UTF-8 encoding of one character (JS `TextEncoder`). -/
def utf8Bytes (c : Char) : List Nat :=
  let n := c.toNat
  if n < 128 then [n]
  else if n < 2048 then [192 ||| (n >>> 6), 128 ||| (n &&& 63)]
  else if n < 65536 then
    [224 ||| (n >>> 12), 128 ||| ((n >>> 6) &&& 63), 128 ||| (n &&& 63)]
  else
    [240 ||| (n >>> 18), 128 ||| ((n >>> 12) &&& 63),
     128 ||| ((n >>> 6) &&& 63), 128 ||| (n &&& 63)]

/-- UTF-8 bytes of a string. -/
def strBytes (s : String) : List Nat := s.data.flatMap utf8Bytes

/-- Lowercase hex digit for a nibble. -/
def hexDigit (n : Nat) : Char :=
  if n < 10 then Char.ofNat (48 + n) else Char.ofNat (87 + n)

/-- Two lowercase hex digits of a byte (JS `b.toString(16).padStart(2, "0")`). -/
def byteHex (b : Nat) : List Char := [hexDigit (b / 16), hexDigit (b % 16)]

/-- SHA-256 digest of a byte list, as 32 bytes. -/
def sha256Bytes (msg : List Nat) : List Nat :=
  let final := (chunks64 (sha256Pad msg)).foldl sha256Compress sha256H0
  final.flatMap (fun w => beBytes w 4)

/-- `sha256Hex` (src/index.ts lines 223-229): hex digest of the UTF-8 input. -/
def sha256Hex (input : String) : String :=
  String.mk ((sha256Bytes (strBytes input)).flatMap byteHex)

/-! ## Data model (src/index.ts lines 8-41) -/

/-- A value of the flat metadata map: `string | number | boolean`. -/
inductive MetaValue
  | str (s : String)
  | num (n : Int)
  | boolean (b : Bool)
deriving DecidableEq, Repr

/-- Geo snapshot `{country?, city?, region?}` (also used for the raw
`request.cf` fields consumed by `sanitizeGeo`). -/
structure Geo where
  country : Option String
  city : Option String
  region : Option String
deriving DecidableEq, Repr

/-- `PixelInitPayload`: optional label and flat metadata map. -/
structure PixelInitPayload where
  label : Option String := none
  metadata : Option (List (String × MetaValue)) := none
deriving DecidableEq, Repr

/-- `PixelMeta`, the stored per-pixel metadata record. -/
structure PixelMeta where
  id : String
  createdAt : String
  label : Option String
  metadata : Option (List (String × MetaValue))
  tokenHash : String
  openCount : Nat
  lastOpenedAt : Option String := none
deriving DecidableEq, Repr

/-- `PixelEvent`, one recorded open. -/
structure PixelEvent where
  timestamp : String
  anonymizedIp : Option String
  userAgent : Option String
  referer : Option String
  language : Option String
  geo : Option Geo
deriving DecidableEq, Repr

/-! ## Key-value store model

The Cloudflare KV namespace is modelled as an association list in insertion
order (as the in-memory `Map`-backed test double realizes it). `put` on an
existing key overwrites in place; `list` filters keys by prefix and takes at
most `limit` of them. Values are stored structurally (`JSON.stringify` /
`{type:"json"}` round-trips are the identity on well-formed records). -/

inductive StoreValue
  | metaV (m : PixelMeta)
  | eventV (e : PixelEvent)
deriving DecidableEq, Repr

abbrev Store := List (String × StoreValue)

def hasKey : Store → String → Bool
  | [], _ => false
  | kv :: rest, k => kv.1 == k || hasKey rest k

def kvGet : Store → String → Option StoreValue
  | [], _ => none
  | kv :: rest, k => if kv.1 == k then some kv.2 else kvGet rest k

def kvPut (s : Store) (k : String) (v : StoreValue) : Store :=
  if hasKey s k then s.map (fun kv => if kv.1 == k then (k, v) else kv)
  else s ++ [(k, v)]

/-- `list({prefix, limit}).keys`: keys with the given prefix, at most `limit`. -/
def kvListKeys (s : Store) (pre : String) (limit : Nat) : List String :=
  ((s.map Prod.fst).filter (fun k => isPrefixB pre.data k.data)).take limit

/-- Number of records stored under a key prefix. -/
def countPrefix (s : Store) (pre : String) : Nat :=
  ((s.map Prod.fst).filter (fun k => isPrefixB pre.data k.data)).length

/-! ## Key-space layout (src/index.ts lines 209-215) -/

def eventKeyPrefix (id : String) : String := "events:" ++ id ++ ":"

def metaKey (id : String) : String := "meta:" ++ id

/-- Number of distinct event records stored under `events:<id>:`. -/
def countEventRecords (s : Store) (id : String) : Nat :=
  countPrefix s (eventKeyPrefix id)

/-! ## Pure helpers (src/index.ts lines 204-207, 231-264, 304-332) -/

/-- `sanitizeMeta` returns `meta` with the `tokenHash` field removed
(object rest destructuring); the result type has no such field. -/
structure SafeMeta where
  id : String
  createdAt : String
  label : Option String
  metadata : Option (List (String × MetaValue))
  openCount : Nat
  lastOpenedAt : Option String
deriving DecidableEq, Repr

def sanitizeMeta (m : PixelMeta) : SafeMeta :=
  { id := m.id, createdAt := m.createdAt, label := m.label,
    metadata := m.metadata, openCount := m.openCount,
    lastOpenedAt := m.lastOpenedAt }

/-- `anonymizeIp` (src/index.ts lines 231-248). A JS falsy check on a
possibly-null string is `none` or the empty string. -/
def anonymizeIp : Option String → Option String
  | none => none
  | some ip =>
    if ip = "" then none
    else
      let dotted :=
        if strContainsChar ip '.' then
          let segments := jsSplit ip '.'
          if segments.length = 4 then
            some (String.intercalate "." (segments.set 3 "0"))
          else none
        else none
      match dotted with
      | some r => some r
      | none =>
        if strContainsChar ip ':' then
          let segments := jsSplit ip ':'
          some (String.intercalate ":"
            (segments.take (segments.length - 4) ++
             (segments.drop (segments.length - 4)).map (fun _ => "0000")))
        else none

/-- JS falsiness of a nullable string: `null`/`undefined` or `""`. -/
def isFalsy : Option String → Bool
  | none => true
  | some s => s = ""

/-- `sanitizeGeo` (src/index.ts lines 250-259). -/
def sanitizeGeo : Option Geo → Option Geo
  | none => none
  | some g =>
    if isFalsy g.country && isFalsy g.city && isFalsy g.region then none
    else some g

/-- `truncate` (src/index.ts lines 261-264): falsy to null, otherwise cut
to `max-1` characters with `…` appended when longer than `max`. -/
def truncate (value : Option String) (max : Nat) : Option String :=
  match value with
  | none => none
  | some v =>
    if v = "" then none
    else if v.length > max then some (jsSliceTo v ((max : Int) - 1) ++ "…")
    else some v

/-- `value.replace(/"/g, '""')`. -/
def doubleQuotes : List Char → List Char
  | [] => []
  | c :: cs => if c = '"' then '"' :: '"' :: doubleQuotes cs else c :: doubleQuotes cs

/-- `escapeCsv` (src/index.ts lines 325-332). -/
def escapeCsv (value : Option String) : String :=
  match value with
  | none => ""
  | some v =>
    if v = "" then ""
    else if strContainsChar (String.mk (doubleQuotes v.data)) ',' ||
            strContainsChar (String.mk (doubleQuotes v.data)) '\n' then
      "\"" ++ String.mk (doubleQuotes v.data) ++ "\""
    else String.mk (doubleQuotes v.data)

def csvHeaderRow : List String :=
  ["timestamp", "anonymizedIp", "userAgent", "referer", "language",
   "country", "region", "city"]

/-- One CSV data row (src/index.ts lines 309-318). -/
def csvRow (e : PixelEvent) : String :=
  String.intercalate ","
    [e.timestamp,
     e.anonymizedIp.getD "",
     escapeCsv e.userAgent,
     escapeCsv e.referer,
     escapeCsv e.language,
     (e.geo.bind Geo.country).getD "",
     (e.geo.bind Geo.region).getD "",
     (e.geo.bind Geo.city).getD ""]

/-- `buildCsv` (src/index.ts lines 304-323); the `meta` parameter is unused
by the source body. -/
def buildCsv (_meta : PixelMeta) (events : List PixelEvent) : String :=
  String.intercalate "\n"
    (String.intercalate "," csvHeaderRow :: events.map csvRow)

/-! ## HTTP surface model -/

/-- The 43-byte 1×1 transparent GIF (src/index.ts lines 38-41). -/
def transparentGif : List Nat :=
  [71, 73, 70, 56, 57, 97, 1, 0, 1, 0, 128, 0, 0, 0, 0, 0, 255, 255, 255, 33,
   249, 4, 1, 0, 0, 0, 0, 44, 0, 0, 0, 0, 1, 0, 1, 0, 0, 2, 2, 68, 1, 0, 59]

/-- The creation response body (src/index.ts lines 89-95). -/
structure CreateResponse where
  id : String
  createdAt : String
  pixelUrl : String
  eventsUrl : String
  accessToken : String
deriving DecidableEq, Repr

/-- Response bodies, structurally: raw bytes, plain text, the creation JSON,
the report JSON (sanitized meta + event list), or CSV text. -/
inductive BodyVal
  | noBody
  | bytes (bs : List Nat)
  | text (s : String)
  | createJson (c : CreateResponse)
  | reportJson (meta : SafeMeta) (events : List PixelEvent)
  | csv (s : String)
deriving DecidableEq, Repr

structure HttpResponse where
  status : Nat
  headers : List (String × String)
  body : BodyVal
deriving DecidableEq, Repr

def API_KEY_HEADER : String := "x-api-key"

/-- `corsHeaders` (src/index.ts lines 266-273); `origin` is the request's
`origin` header. -/
def corsHeaders (origin : Option String) : List (String × String) :=
  [("access-control-allow-origin", origin.getD "*"),
   ("access-control-allow-methods", "GET,HEAD,POST,OPTIONS"),
   ("access-control-allow-headers", API_KEY_HEADER ++ ", content-type")]

/-- Headers attached by `jsonResponse` (src/index.ts lines 275-283). -/
def jsonResponseHeaders (reqOrigin : Option String) : List (String × String) :=
  ("content-type", "application/json;charset=utf-8") :: corsHeaders reqOrigin

/-- `url.pathname.split("/").filter(Boolean)`. -/
def pathSegments (p : String) : List String :=
  (jsSplit p '/').filter (fun seg => seg ≠ "")

/-- `rawId.replace(/\.gif$/i, "")`: drop one trailing `.gif`,
case-insensitively. -/
def stripGifSuffix (s : String) : String :=
  if (s.data.drop (s.data.length - 4)).map Char.toLower = ".gif".data then
    String.mk (s.data.take (s.data.length - 4))
  else s

/-- The pixel id a `/pixel/...` path resolves to
(src/index.ts lines 134-136). -/
def resolvePixelId (pathname : String) : String :=
  stripGifSuffix ((pathSegments pathname).getD 1 "")

/-- The raw per-request inputs consumed by `buildEventRecord`: the
`cf-connecting-ip`, `referer`, `accept-language` and `user-agent` headers
(absent headers are `none`), and the optional `request.cf` geo object
(`hasCf` models the `"cf" in request` test). -/
structure RequestCtx where
  ip : Option String
  referer : Option String
  language : Option String
  userAgent : Option String
  hasCf : Bool
  cf : Option Geo
deriving DecidableEq, Repr

/-- `buildEventRecord` (src/index.ts lines 162-178); `now` is the externalized
`new Date().toISOString()`. -/
def buildEventRecord (now : String) (r : RequestCtx) : PixelEvent :=
  { timestamp := now
    anonymizedIp := anonymizeIp r.ip
    userAgent := truncate r.userAgent 256
    referer := truncate r.referer 256
    language := truncate r.language 32
    geo := if r.hasCf then sanitizeGeo r.cf else none }

/-- The event key `events:<id>:<Date.now()>-<randomHex(3)>`
(src/index.ts line 181). -/
def eventKey (id : String) (nowMillis : Nat) (rand : String) : String :=
  eventKeyPrefix id ++ toString nowMillis ++ "-" ++ rand

/-- `storeEvent` (src/index.ts lines 180-183). -/
def storeEvent (s : Store) (id : String) (nowMillis : Nat) (rand : String)
    (e : PixelEvent) : Store :=
  kvPut s (eventKey id nowMillis rand) (StoreValue.eventV e)

/-- `loadMeta` (src/index.ts lines 196-202). -/
def loadMeta (s : Store) (id : String) : Option PixelMeta :=
  match kvGet s (metaKey id) with
  | some (StoreValue.metaV m) => some m
  | _ => none

/-- `loadEvents` (src/index.ts lines 185-194): list one page of event keys
(limit 1000), fetch each, drop nulls, sort by timestamp ascending.
`getTime` is the externalized `new Date(ts).getTime()`. -/
def loadEvents (getTime : String → Int) (s : Store) (id : String) :
    List PixelEvent :=
  let keys := kvListKeys s (eventKeyPrefix id) 1000
  let events := keys.filterMap (fun k =>
    match kvGet s k with
    | some (StoreValue.eventV e) => some e
    | _ => none)
  events.mergeSort (fun a b => getTime a.timestamp ≤ getTime b.timestamp)

/-- `createPixel` (src/index.ts lines 70-98). `parsed` is the result of
`safeJson` (`none` on an unparseable body); `id`/`accessToken` are the
externalized `randomHex(9)`/`randomHex(16)`; `createdAt` the ISO timestamp;
`urlOrigin` is `url.origin`; `reqOrigin` the request's `origin` header. -/
def createPixel (s : Store) (parsed : Option PixelInitPayload)
    (id accessToken createdAt urlOrigin : String) (reqOrigin : Option String) :
    Store × HttpResponse :=
  let payload := parsed.getD {}
  let tokenHash := sha256Hex accessToken
  let meta : PixelMeta :=
    { id := id, createdAt := createdAt, label := payload.label,
      metadata := payload.metadata, tokenHash := tokenHash, openCount := 0,
      lastOpenedAt := none }
  let s' := kvPut s (metaKey id) (StoreValue.metaV meta)
  let responseBody : CreateResponse :=
    { id := id, createdAt := createdAt,
      pixelUrl := urlOrigin ++ "/pixel/" ++ id ++ ".gif",
      eventsUrl := urlOrigin ++ "/api/pixels/" ++ id ++ "?token=" ++ accessToken,
      accessToken := accessToken }
  (s', { status := 201, headers := jsonResponseHeaders reqOrigin,
         body := BodyVal.createJson responseBody })

/-- `getPixelReport` (src/index.ts lines 100-131). `token` and `format` are
the `token`/`format` query parameters (`none` when absent). -/
def getPixelReport (getTime : String → Int) (s : Store) (pathname : String)
    (token format reqOrigin : Option String) : HttpResponse :=
  match (pathSegments pathname).get? 2 with
  | none => { status := 400, headers := [], body := BodyVal.text "Missing pixel id" }
  | some id =>
    match loadMeta s id with
    | none => { status := 404, headers := [], body := BodyVal.text "Pixel not found" }
    | some meta =>
      let authorized :=
        match token with
        | none => false
        | some t => if t = "" then false else sha256Hex t = meta.tokenHash
      if authorized then
        let events := loadEvents getTime s id
        if format = some "csv" then
          { status := 200,
            headers := [("content-type", "text/csv;charset=utf-8"),
                        ("content-disposition",
                         "attachment; filename=\"" ++ id ++ "-events.csv\"")] ++
                       corsHeaders reqOrigin,
            body := BodyVal.csv (buildCsv meta events) }
        else
          { status := 200, headers := jsonResponseHeaders reqOrigin,
            body := BodyVal.reportJson (sanitizeMeta meta) events }
      else { status := 401, headers := [], body := BodyVal.text "Unauthorized" }

/-- The fixed pixel-response headers (src/index.ts lines 148-153). -/
def pixelHeaders : List (String × String) :=
  [("cache-control", "no-store, must-revalidate"),
   ("content-type", "image/gif"),
   ("content-length", toString transparentGif.length),
   ("access-control-allow-origin", "*")]

/-- `servePixel` (src/index.ts lines 133-160). `now`/`nowMillis`/`rand` are
the externalized `new Date().toISOString()`, `Date.now()` and
`randomHex(3)` of this request. -/
def servePixel (s : Store) (pathname : String) (r : RequestCtx)
    (now : String) (nowMillis : Nat) (rand : String) (isHead : Bool) :
    Store × HttpResponse :=
  let id := resolvePixelId pathname
  let s' :=
    match loadMeta s id with
    | some meta =>
      let event := buildEventRecord now r
      let s1 := storeEvent s id nowMillis rand event
      let meta' := { meta with openCount := meta.openCount + 1,
                               lastOpenedAt := some event.timestamp }
      kvPut s1 (metaKey id) (StoreValue.metaV meta')
    | none => s
  (s', { status := 200, headers := pixelHeaders,
         body := if isHead then BodyVal.noBody else BodyVal.bytes transparentGif })

/-- One sequential open per entry: the parameters of one `servePixel` call. -/
structure OpenCtx where
  req : RequestCtx
  now : String
  nowMillis : Nat
  rand : String
deriving DecidableEq, Repr

/-- Run a sequence of opens, each one's store writes visible to the next. -/
def runOpens (pathname : String) (isHead : Bool) : Store → List OpenCtx → Store
  | s, [] => s
  | s, c :: cs =>
    runOpens pathname isHead
      (servePixel s pathname c.req c.now c.nowMillis c.rand isHead).1 cs

/-- All string components of a stored `PixelMeta` record (field values,
metadata keys and string metadata values). -/
def metaValueStrings : MetaValue → List String
  | MetaValue.str s => [s]
  | _ => []

def metaFieldStrings (m : PixelMeta) : List String :=
  [m.id, m.createdAt] ++ m.label.toList ++
  (m.metadata.getD []).flatMap (fun kv => kv.1 :: metaValueStrings kv.2) ++
  [m.tokenHash] ++ m.lastOpenedAt.toList

/-- All string atoms of a creation payload (label, metadata keys and string
metadata values). -/
def payloadStrings (p : PixelInitPayload) : List String :=
  p.label.toList ++
  (p.metadata.getD []).flatMap (fun kv => kv.1 :: metaValueStrings kv.2)

/-! ## Spec-side definitions (for refinement comparisons)

These follow the specification's words, not the source, and are compared
against the source-derived definitions above. -/

/-- Modelled from the spec: "for every colon-separated input it returns the
input with the last 4 groups replaced by zeros" — the colon rule applied
unconditionally to a colon-separated input. -/
def colonGroupsZeroed (s : String) : String :=
  let segments := jsSplit s ':'
  String.intercalate ":"
    (segments.take (segments.length - 4) ++
     (segments.drop (segments.length - 4)).map (fun _ => "0000"))

/-- Modelled from the spec: collapse doubled quote characters (part of the
standard CSV unescaping rule). -/
def collapseQuotes : List Char → List Char
  | [] => []
  | [c] => [c]
  | c :: d :: cs =>
    if c = '"' ∧ d = '"' then '"' :: collapseQuotes cs
    else c :: collapseQuotes (d :: cs)

/-- Modelled from the spec: the standard CSV unescaping rule — strip the
enclosing quotes and collapse doubled quotes; other inputs pass through. -/
def csvUnescape (s : String) : String :=
  if 2 ≤ s.data.length ∧ s.data.head? = some '"' ∧
      s.data.getLast? = some '"' then
    String.mk (collapseQuotes ((s.data.drop 1).dropLast))
  else s

/-! ## Concrete fixtures used by witnesses and counterexamples -/

def emptyReq : RequestCtx :=
  { ip := none, referer := none, language := none, userAgent := none,
    hasCf := false, cf := none }

def c1wMeta : PixelMeta :=
  { id := "abc", createdAt := "2026-01-01T00:00:00.000Z", label := none,
    metadata := none, tokenHash := sha256Hex "secret", openCount := 0,
    lastOpenedAt := none }

def c2xMeta : PixelMeta :=
  { id := "x", createdAt := "t0", label := none, metadata := none,
    tokenHash := "h", openCount := 0, lastOpenedAt := none }

def c2xStore : Store := [(metaKey "x", StoreValue.metaV c2xMeta)]

def c2xOpen : OpenCtx :=
  { req := emptyReq, now := "2026-01-01T00:00:00.001Z", nowMillis := 5,
    rand := "aaaaaa" }

def c2wOpenA : OpenCtx :=
  { req := emptyReq, now := "2026-01-01T00:00:00.001Z", nowMillis := 5,
    rand := "aaaaaa" }

def c2wOpenB : OpenCtx :=
  { req := emptyReq, now := "2026-01-01T00:00:00.002Z", nowMillis := 6,
    rand := "bbbbbb" }

def c3wTok : String := "0123456789abcdef0123456789abcdef"

def c3wPayload : PixelInitPayload :=
  { label := some "promo", metadata := some [("campaign", MetaValue.str "fall")] }

def c5wMeta : PixelMeta :=
  { id := "x", createdAt := "t0", label := none, metadata := none,
    tokenHash := "h", openCount := 0, lastOpenedAt := none }

def c5wStore : Store := [(metaKey "x", StoreValue.metaV c5wMeta)]

def c6wMeta : PixelMeta :=
  { id := "abc", createdAt := "2026-01-01T00:00:00.000Z", label := some "promo",
    metadata := none, tokenHash := sha256Hex "tok", openCount := 1,
    lastOpenedAt := some "2026-01-01T00:00:00.001Z" }

def c6wEvent : PixelEvent :=
  { timestamp := "2026-01-01T00:00:00.001Z", anonymizedIp := some "1.2.3.0",
    userAgent := some "vitest", referer := some "https://ex.com/a,b",
    language := some "en", geo := none }

def c6wStore : Store :=
  [(metaKey "abc", StoreValue.metaV c6wMeta),
   (eventKey "abc" 5 "aaaaaa", StoreValue.eventV c6wEvent)]

/-! ## Store lemmas -/

theorem kvGet_append_single (s : Store) (k : String) (v : StoreValue)
    (h : hasKey s k = false) : kvGet (s ++ [(k, v)]) k = some v := by
  induction s with
  | nil => simp [kvGet]
  | cons kv rest ih =>
    simp only [hasKey, Bool.or_eq_false_iff] at h
    simpa [kvGet, h.1] using ih h.2

theorem kvGet_map_replace (s : Store) (k : String) (v : StoreValue)
    (h : hasKey s k = true) :
    kvGet (s.map (fun kv => if kv.1 == k then (k, v) else kv)) k = some v := by
  induction s with
  | nil => simp [hasKey] at h
  | cons kv rest ih =>
    by_cases hk : kv.1 == k
    · simp [kvGet, hk]
    · simp only [hasKey, hk, Bool.false_or] at h
      simpa [kvGet, hk] using ih h

theorem kvGet_kvPut_same (s : Store) (k : String) (v : StoreValue) :
    kvGet (kvPut s k v) k = some v := by
  unfold kvPut
  by_cases h : hasKey s k
  · simpa [h] using kvGet_map_replace s k v h
  · simpa [eq_false_of_ne_true h] using
      kvGet_append_single s k v (eq_false_of_ne_true h)

theorem kvGet_append_single_ne (s : Store) (k k' : String) (v : StoreValue)
    (h : k' ≠ k) : kvGet (s ++ [(k, v)]) k' = kvGet s k' := by
  induction s with
  | nil => simp [kvGet, (beq_eq_false_iff_ne).mpr (fun e => h e.symm)]
  | cons kv rest ih =>
    by_cases h4 : kv.1 == k'
    · simp [kvGet, h4]
    · simpa [kvGet, h4] using ih

theorem kvGet_map_replace_ne (s : Store) (k k' : String) (v : StoreValue)
    (h : k' ≠ k) :
    kvGet (s.map (fun kv => if kv.1 == k then (k, v) else kv)) k' =
      kvGet s k' := by
  induction s with
  | nil => simp [kvGet]
  | cons kv rest ih =>
    by_cases h1 : kv.1 == k
    · have hke : kv.1 = k := by simpa using h1
      have h2 : (k == k') = false :=
        (beq_eq_false_iff_ne).mpr (fun e => h e.symm)
      have h3 : (kv.1 == k') = false := by
        rw [hke]; exact h2
      simpa [kvGet, h1, h2, h3] using ih
    · by_cases h4 : kv.1 == k'
      · simp [kvGet, h1, h4]
      · simpa [kvGet, h1, h4] using ih

theorem kvGet_kvPut_ne (s : Store) (k k' : String) (v : StoreValue)
    (h : k' ≠ k) : kvGet (kvPut s k v) k' = kvGet s k' := by
  unfold kvPut
  by_cases hk : hasKey s k
  · simpa [hk] using kvGet_map_replace_ne s k k' v h
  · simpa [hk] using kvGet_append_single_ne s k k' v h

theorem kvPut_keys_of_hasKey (s : Store) (k : String) (v : StoreValue)
    (h : hasKey s k = true) :
    (kvPut s k v).map Prod.fst = s.map Prod.fst := by
  unfold kvPut
  simp only [h, if_true, List.map_map]
  apply List.map_congr_left
  intro kv _
  by_cases hk : kv.1 == k
  · simp [Function.comp, hk, (by simpa using hk : kv.1 = k)]
  · simp [Function.comp, hk]

theorem kvPut_keys_of_fresh (s : Store) (k : String) (v : StoreValue)
    (h : hasKey s k = false) :
    (kvPut s k v).map Prod.fst = s.map Prod.fst ++ [k] := by
  unfold kvPut
  simp [h]

theorem hasKey_of_kvGet (s : Store) (k : String) (v : StoreValue)
    (h : kvGet s k = some v) : hasKey s k = true := by
  induction s with
  | nil => simp [kvGet] at h
  | cons kv rest ih =>
    by_cases hk : kv.1 == k
    · simp [hasKey, hk]
    · simp only [kvGet, hk, if_false] at h
      simp [hasKey, hk, ih h]

theorem hasKey_eq_any (s : Store) (k : String) :
    hasKey s k = (s.map Prod.fst).any (fun x => x == k) := by
  induction s with
  | nil => rfl
  | cons kv rest ih => simp [hasKey, ih]

theorem countPrefix_kvPut_existing (s : Store) (k : String) (v : StoreValue)
    (pre : String) (h : hasKey s k = true) :
    countPrefix (kvPut s k v) pre = countPrefix s pre := by
  unfold countPrefix
  rw [kvPut_keys_of_hasKey s k v h]

theorem countPrefix_kvPut_fresh (s : Store) (k : String) (v : StoreValue)
    (pre : String) (h : hasKey s k = false)
    (hp : isPrefixB pre.data k.data = true) :
    countPrefix (kvPut s k v) pre = countPrefix s pre + 1 := by
  unfold countPrefix
  rw [kvPut_keys_of_fresh s k v h, List.filter_append]
  simp [hp]

theorem countPrefix_pos_of_hasKey (s : Store) (k : String) (pre : String)
    (h : hasKey s k = true) (hp : isPrefixB pre.data k.data = true) :
    0 < countPrefix s pre := by
  rw [hasKey_eq_any] at h
  obtain ⟨x, hx, hxk⟩ := List.any_eq_true.mp h
  have hxk' : x = k := by simpa using hxk
  subst hxk'
  unfold countPrefix
  rw [List.length_pos]
  intro hemp
  have : x ∈ (s.map Prod.fst).filter (fun y => isPrefixB pre.data y.data) :=
    List.mem_filter.mpr ⟨hx, hp⟩
  simp [hemp] at this

theorem hasKey_kvPut (s : Store) (k k' : String) (v : StoreValue) :
    hasKey (kvPut s k v) k' = (hasKey s k' || k == k') := by
  by_cases h : hasKey s k
  · rw [hasKey_eq_any, kvPut_keys_of_hasKey s k v h, ← hasKey_eq_any]
    by_cases h' : hasKey s k'
    · simp [h']
    · by_cases hkk : k == k'
      · have : k = k' := by simpa using hkk
        subst this; exact absurd h h'
      · simp [h', hkk]
  · rw [hasKey_eq_any, kvPut_keys_of_fresh s k v (eq_false_of_ne_true h),
        List.any_append, ← hasKey_eq_any]
    simp

/-! ## Prefix and key-shape lemmas -/

theorem isPrefixB_append_self (l m : List Char) : isPrefixB l (l ++ m) = true := by
  induction l with
  | nil => rfl
  | cons c cs ih => simp [isPrefixB, ih]

theorem eventKey_data (id : String) (t : Nat) (r : String) :
    (eventKey id t r).data =
      (eventKeyPrefix id).data ++ (toString t ++ "-" ++ r).data := by
  unfold eventKey
  rw [String.append_assoc, String.append_assoc, String.data_append]
  rw [String.append_assoc]

theorem eventKey_hasPrefix (id : String) (t : Nat) (r : String) :
    isPrefixB (eventKeyPrefix id).data (eventKey id t r).data = true := by
  rw [eventKey_data]
  exact isPrefixB_append_self _ _

theorem eventKeyPrefix_data (id : String) :
    (eventKeyPrefix id).data = "events:".data ++ (id ++ ":").data := by
  unfold eventKeyPrefix
  rw [String.append_assoc, String.data_append]

theorem metaKey_data (id : String) :
    (metaKey id).data = "meta:".data ++ id.data := by
  unfold metaKey
  rw [String.data_append]

theorem metaKey_ne_eventKey (id id' : String) (t : Nat) (r : String) :
    metaKey id ≠ eventKey id' t r := by
  intro h
  have hd : (metaKey id).data = (eventKey id' t r).data := by rw [h]
  rw [metaKey_data, eventKey_data, eventKeyPrefix_data] at hd
  have hh := congrArg (fun l => l.head?) hd
  simp at hh

theorem metaKey_not_eventPrefixed (id id' : String) :
    isPrefixB (eventKeyPrefix id).data (metaKey id').data = false := by
  rw [metaKey_data, eventKeyPrefix_data]
  simp [isPrefixB]

/-! ## servePixel unfolding lemmas -/

theorem servePixel_resp (s : Store) (pathname : String) (r : RequestCtx)
    (now : String) (millis : Nat) (rand : String) (isHead : Bool) :
    (servePixel s pathname r now millis rand isHead).2 =
      { status := 200, headers := pixelHeaders,
        body := if isHead then BodyVal.noBody
                else BodyVal.bytes transparentGif } := rfl

theorem servePixel_store_of_none (s : Store) (pathname : String)
    (r : RequestCtx) (now : String) (millis : Nat) (rand : String)
    (isHead : Bool) (h : loadMeta s (resolvePixelId pathname) = none) :
    (servePixel s pathname r now millis rand isHead).1 = s := by
  simp only [servePixel, h]

theorem servePixel_store_of_meta (s : Store) (pathname : String)
    (r : RequestCtx) (now : String) (millis : Nat) (rand : String)
    (isHead : Bool) (m : PixelMeta)
    (h : loadMeta s (resolvePixelId pathname) = some m) :
    (servePixel s pathname r now millis rand isHead).1 =
      kvPut (kvPut s (eventKey (resolvePixelId pathname) millis rand)
                  (StoreValue.eventV (buildEventRecord now r)))
            (metaKey (resolvePixelId pathname))
            (StoreValue.metaV
              { m with openCount := m.openCount + 1,
                       lastOpenedAt :=
                         some (buildEventRecord now r).timestamp }) := by
  simp only [servePixel, storeEvent, h]

theorem loadMeta_kvPut_same (s : Store) (id : String) (m : PixelMeta) :
    loadMeta (kvPut s (metaKey id) (StoreValue.metaV m)) id = some m := by
  unfold loadMeta
  rw [kvGet_kvPut_same]

/-! ## Sequential-open invariant -/

theorem runOpens_spec (pathname : String) (isHead : Bool) :
    ∀ (ctxs : List OpenCtx) (s : Store) (m : PixelMeta),
      loadMeta s (resolvePixelId pathname) = some m →
      (∀ c ∈ ctxs,
        hasKey s (eventKey (resolvePixelId pathname) c.nowMillis c.rand) =
          false) →
      (ctxs.map fun c =>
        eventKey (resolvePixelId pathname) c.nowMillis c.rand).Nodup →
      (∃ m', loadMeta (runOpens pathname isHead s ctxs)
               (resolvePixelId pathname) = some m' ∧
         m'.openCount = m.openCount + ctxs.length) ∧
      countEventRecords (runOpens pathname isHead s ctxs)
          (resolvePixelId pathname) =
        countEventRecords s (resolvePixelId pathname) + ctxs.length := by
  intro ctxs
  induction ctxs with
  | nil =>
    intro s m hm _ _
    exact ⟨⟨m, hm, rfl⟩, rfl⟩
  | cons c cs ih =>
    intro s m hm hfresh hnodup
    set id := resolvePixelId pathname with hid
    set k := eventKey id c.nowMillis c.rand with hk
    set e := buildEventRecord c.now c.req with he
    set m' : PixelMeta :=
      { m with openCount := m.openCount + 1,
               lastOpenedAt := some e.timestamp } with hm'
    set s1 := kvPut s k (StoreValue.eventV e) with hs1
    set s2 := kvPut s1 (metaKey id) (StoreValue.metaV m') with hs2
    have hstep : (servePixel s pathname c.req c.now c.nowMillis c.rand
        isHead).1 = s2 :=
      servePixel_store_of_meta s pathname c.req c.now c.nowMillis c.rand
        isHead m hm
    have hrun : runOpens pathname isHead s (c :: cs) =
        runOpens pathname isHead s2 cs := by
      simp only [runOpens, hstep]
    have hkfresh : hasKey s k = false := hfresh c (by simp)
    -- the metadata key is present in s1
    have hget1 : kvGet s1 (metaKey id) = kvGet s (metaKey id) :=
      kvGet_kvPut_ne s k (metaKey id) _ (metaKey_ne_eventKey id id _ _)
    have hmeta1 : loadMeta s1 id = some m := by
      unfold loadMeta
      rw [hget1]
      exact hm
    have hhas1 : hasKey s1 (metaKey id) = true := by
      have : kvGet s1 (metaKey id) = some (StoreValue.metaV m) := by
        unfold loadMeta at hmeta1
        revert hmeta1
        cases hv : kvGet s1 (metaKey id) with
        | none => simp
        | some v =>
          cases v with
          | metaV mm => intro hmm; simp at hmm; rw [hmm]
          | eventV ev => simp
      exact hasKey_of_kvGet s1 (metaKey id) _ this
    -- metadata record after the step
    have hmeta2 : loadMeta s2 id = some m' := loadMeta_kvPut_same s1 id m'
    -- event count after the step
    have hcnt2 : countEventRecords s2 id = countEventRecords s id + 1 := by
      unfold countEventRecords
      rw [hs2, countPrefix_kvPut_existing s1 (metaKey id) _ _ hhas1, hs1,
          countPrefix_kvPut_fresh s k _ _ hkfresh (eventKey_hasPrefix id _ _)]
    -- freshness of the remaining keys
    have hfresh2 : ∀ c' ∈ cs,
        hasKey s2 (eventKey id c'.nowMillis c'.rand) = false := by
      intro c' hc'
      set k' := eventKey id c'.nowMillis c'.rand with hk'
      have h1 : (metaKey id == k') = false :=
        (beq_eq_false_iff_ne).mpr (metaKey_ne_eventKey id id _ _)
      have h2 : (k == k') = false := by
        rw [beq_eq_false_iff_ne]
        intro hkk
        rw [List.map_cons, List.nodup_cons] at hnodup
        exact hnodup.1 (by
          rw [← hk, hkk, hk']; exact List.mem_map_of_mem _ hc')
      rw [hs2, hasKey_kvPut, h1, hs1, hasKey_kvPut, h2,
          hfresh c' (by simp [hc'])]
      simp
    have hnodup2 : (cs.map fun c' =>
        eventKey id c'.nowMillis c'.rand).Nodup := by
      rw [List.map_cons, List.nodup_cons] at hnodup
      exact hnodup.2
    obtain ⟨⟨mfin, hmfin, hocfin⟩, hcntfin⟩ := ih s2 m' hmeta2 hfresh2 hnodup2
    refine ⟨⟨mfin, by rwa [hrun], ?_⟩, ?_⟩
    · rw [hocfin, hm']
      simp [List.length_cons]
      omega
    · rw [hrun, hcntfin, hcnt2]
      simp [List.length_cons]
      omega

/-! ## Claim C1 -/

/-- C1, counterexample: a report request with a missing token for a pixel id
with no stored `PixelMeta` yields 404 (NotFound), not the claimed
401 AuthorizationFailure — the metadata lookup precedes the token check. -/
theorem c1_counterexample :
    (getPixelReport (fun _ => 0) [] "/api/pixels/abc" none none none).status
      = 404 ∧
    (getPixelReport (fun _ => 0) [] "/api/pixels/abc" none none none).status
      ≠ 401 := by
  decide

/-- C1 (amended): for every report request carrying an incorrect or missing
token whose pixel id has a `PixelMeta` record in the store, the result is the
401 Unauthorized response. (For ids with no record the result is 404.) -/
theorem c1_report_unauthorized (getTime : String → Int) (s : Store)
    (pathname : String) (token format reqOrigin : Option String)
    (id : String) (meta : PixelMeta)
    (hid : (pathSegments pathname).get? 2 = some id)
    (hmeta : loadMeta s id = some meta)
    (hbad : ∀ t, token = some t → t = "" ∨ sha256Hex t ≠ meta.tokenHash) :
    getPixelReport getTime s pathname token format reqOrigin =
      { status := 401, headers := [], body := BodyVal.text "Unauthorized" } := by
  simp only [getPixelReport, hid, hmeta]
  cases token with
  | none => simp
  | some t =>
    rcases hbad t rfl with he | hh
    · simp [he]
    · by_cases he : t = ""
      · simp [he]
      · simp [he, hh]

/-- Witness for C1: a concrete store holding a pixel, queried without a
token. -/
theorem c1_report_unauthorized_witness :
    getPixelReport (fun _ => 0) [(metaKey "abc", StoreValue.metaV c1wMeta)]
      "/api/pixels/abc" none none none =
      { status := 401, headers := [], body := BodyVal.text "Unauthorized" } :=
  c1_report_unauthorized (fun _ => 0) _ _ none none none "abc" c1wMeta
    (by decide) rfl (fun t ht => nomatch ht)

/-! ## Claim C2 -/

/-- C2, counterexample: two sequential opens of a fresh pixel whose
externalized key discriminators (`Date.now()` millis and the random suffix)
coincide overwrite the same event key: `openCount` becomes 2 but only one
event record exists under `events:x:`, so "exactly N distinct event records"
fails at N = 2. -/
theorem c2_counterexample :
    countEventRecords
      (runOpens "/pixel/x" false c2xStore [c2xOpen, c2xOpen]) "x" = 1 ∧
    countEventRecords
      (runOpens "/pixel/x" false c2xStore [c2xOpen, c2xOpen]) "x" ≠ 2 ∧
    (loadMeta (runOpens "/pixel/x" false c2xStore [c2xOpen, c2xOpen]) "x").map
      PixelMeta.openCount = some 2 := by
  decide

/-- C2 (amended): starting from a freshly created pixel (`openCount = 0`, no
event records), N sequential opens whose event-key discriminators are
pairwise distinct leave exactly N event records under `events:<id>:` and a
stored `openCount` of N. -/
theorem c2_sequential_opens (pathname : String) (isHead : Bool) (id : String)
    (ctxs : List OpenCtx) (s : Store) (m : PixelMeta)
    (hid : resolvePixelId pathname = id)
    (hmeta : loadMeta s id = some m)
    (hopen0 : m.openCount = 0)
    (hcount0 : countEventRecords s id = 0)
    (hnodup : (ctxs.map fun c => eventKey id c.nowMillis c.rand).Nodup) :
    countEventRecords (runOpens pathname isHead s ctxs) id = ctxs.length ∧
    ∃ m', loadMeta (runOpens pathname isHead s ctxs) id = some m' ∧
      m'.openCount = ctxs.length := by
  subst hid
  have hfresh : ∀ c ∈ ctxs,
      hasKey s (eventKey (resolvePixelId pathname) c.nowMillis c.rand) =
        false := by
    intro c _
    cases hhe : hasKey s
        (eventKey (resolvePixelId pathname) c.nowMillis c.rand) with
    | false => rfl
    | true =>
      have := countPrefix_pos_of_hasKey s _
        (eventKeyPrefix (resolvePixelId pathname)) hhe
        (eventKey_hasPrefix _ _ _)
      unfold countEventRecords at hcount0
      omega
  obtain ⟨⟨m', hm', hoc⟩, hcnt⟩ :=
    runOpens_spec pathname isHead ctxs s m hmeta hfresh hnodup
  refine ⟨by rw [hcnt, hcount0]; omega, m', hm', by rw [hoc, hopen0]; omega⟩

/-- Witness for C2: two sequential opens with distinct discriminators leave
two event records and `openCount = 2`. -/
theorem c2_sequential_opens_witness :
    countEventRecords
      (runOpens "/pixel/x" false c2xStore [c2wOpenA, c2wOpenB]) "x" = 2 ∧
    ∃ m', loadMeta
        (runOpens "/pixel/x" false c2xStore [c2wOpenA, c2wOpenB]) "x" =
        some m' ∧ m'.openCount = 2 :=
  c2_sequential_opens "/pixel/x" false "x" [c2wOpenA, c2wOpenB] c2xStore
    c2xMeta (by decide) (by decide) (by decide) (by decide) (by decide)

/-! ## Claim C4 -/

/-- C4, counterexample: `"::ffff:1.2.3.4"` is a colon-separated input, but
because it also has exactly 4 dot-separated segments the dotted rule fires
first: the code returns `"::ffff:1.2.3.0"`, not the input with its last 4
colon groups replaced by zeros as the claim's colon clause demands. -/
theorem c4_counterexample :
    strContainsChar "::ffff:1.2.3.4" ':' = true ∧
    anonymizeIp (some "::ffff:1.2.3.4") = some "::ffff:1.2.3.0" ∧
    anonymizeIp (some "::ffff:1.2.3.4") ≠
      some (colonGroupsZeroed "::ffff:1.2.3.4") := by
  decide

/-- C4 (amended): `anonymizeIp` is pure with this priority order: a non-empty
input with exactly 4 dot-separated segments becomes `a.b.c.0`; otherwise a
non-empty input containing a colon gets its last 4 colon groups zeroed;
every other input (null, empty, or malformed) yields null. -/
theorem c4_anonymizeIp_amended :
    anonymizeIp none = none ∧
    anonymizeIp (some "") = none ∧
    (∀ s : String, s ≠ "" →
      strContainsChar s '.' = true → (jsSplit s '.').length = 4 →
      anonymizeIp (some s) =
        some (String.intercalate "." ((jsSplit s '.').set 3 "0"))) ∧
    (∀ s : String, s ≠ "" →
      ¬(strContainsChar s '.' = true ∧ (jsSplit s '.').length = 4) →
      strContainsChar s ':' = true →
      anonymizeIp (some s) = some (colonGroupsZeroed s)) ∧
    (∀ s : String, s ≠ "" →
      ¬(strContainsChar s '.' = true ∧ (jsSplit s '.').length = 4) →
      strContainsChar s ':' = false →
      anonymizeIp (some s) = none) := by
  refine ⟨rfl, rfl, ?_, ?_, ?_⟩
  · intro s hne hdot hlen
    simp [anonymizeIp, hne, hdot, hlen]
  · intro s hne hnd hcolon
    by_cases hdot : strContainsChar s '.' = true
    · have hlen : ¬(jsSplit s '.').length = 4 := fun h => hnd ⟨hdot, h⟩
      simp [anonymizeIp, hne, hdot, hlen, hcolon, colonGroupsZeroed]
    · simp [anonymizeIp, hne, hdot, hcolon, colonGroupsZeroed]
  · intro s hne hnd hcolon
    by_cases hdot : strContainsChar s '.' = true
    · have hlen : ¬(jsSplit s '.').length = 4 := fun h => hnd ⟨hdot, h⟩
      simp [anonymizeIp, hne, hdot, hlen, hcolon]
    · simp [anonymizeIp, hne, hdot, hcolon]

/-- Witness for C4: one concrete instantiation of each of the three
universally quantified clauses. -/
theorem c4_anonymizeIp_amended_witness :
    anonymizeIp (some "203.0.113.42") =
      some (String.intercalate "." ((jsSplit "203.0.113.42" '.').set 3 "0")) ∧
    anonymizeIp (some "2001:db8::1") = some (colonGroupsZeroed "2001:db8::1") ∧
    anonymizeIp (some "not-an-ip") = none :=
  ⟨c4_anonymizeIp_amended.2.2.1 "203.0.113.42" (by decide) (by decide)
     (by decide),
   c4_anonymizeIp_amended.2.2.2.1 "2001:db8::1" (by decide) (by decide)
     (by decide),
   c4_anonymizeIp_amended.2.2.2.2 "not-an-ip" (by decide) (by decide)
     (by decide)⟩

/-! ## Claim C5 -/

/-- C5: two open requests differing only in the pixel id — one with stored
metadata, one without — produce identical responses (the fixed transparent
GIF body and the same fixed headers), and the open of the missing id
performs no store writes. -/
theorem c5_open_indistinguishable (s : Store) (p1 p2 : String)
    (r : RequestCtx) (now : String) (millis : Nat) (rand : String)
    (isHead : Bool) (m : PixelMeta)
    (_h1 : loadMeta s (resolvePixelId p1) = some m)
    (h2 : loadMeta s (resolvePixelId p2) = none) :
    (servePixel s p1 r now millis rand isHead).2 =
      (servePixel s p2 r now millis rand isHead).2 ∧
    (servePixel s p2 r now millis rand isHead).1 = s ∧
    (servePixel s p1 r now millis rand isHead).2.headers = pixelHeaders ∧
    (isHead = false →
      (servePixel s p1 r now millis rand isHead).2.body =
        BodyVal.bytes transparentGif) := by
  refine ⟨rfl, servePixel_store_of_none s p2 r now millis rand isHead h2,
    rfl, ?_⟩
  intro h
  rw [servePixel_resp, h]
  rfl

/-- Witness for C5: a concrete store holding only pixel `x`; opens of
`/pixel/x` and `/pixel/zzz`. -/
theorem c5_open_indistinguishable_witness :
    (servePixel c5wStore "/pixel/x" emptyReq "t1" 5 "aaaaaa" false).2 =
      (servePixel c5wStore "/pixel/zzz" emptyReq "t1" 5 "aaaaaa" false).2 ∧
    (servePixel c5wStore "/pixel/zzz" emptyReq "t1" 5 "aaaaaa" false).1 =
      c5wStore ∧
    (servePixel c5wStore "/pixel/x" emptyReq "t1" 5 "aaaaaa" false).2.headers =
      pixelHeaders ∧
    (false = false →
      (servePixel c5wStore "/pixel/x" emptyReq "t1" 5 "aaaaaa" false).2.body =
        BodyVal.bytes transparentGif) :=
  c5_open_indistinguishable c5wStore "/pixel/x" "/pixel/zzz" emptyReq "t1" 5
    "aaaaaa" false c5wMeta (by decide) (by decide)

/-! ## Claim C8 -/

/-- C8: a creation request whose body is not parseable as JSON (`parsed =
none`) behaves exactly as an empty payload: same store effect and the same
201 success response; the stored `PixelMeta` has `label` null and `metadata`
absent. -/
theorem c8_malformed_payload (s : Store)
    (id accessToken createdAt urlOrigin : String) (reqOrigin : Option String) :
    createPixel s none id accessToken createdAt urlOrigin reqOrigin =
      createPixel s (some {}) id accessToken createdAt urlOrigin reqOrigin ∧
    (createPixel s none id accessToken createdAt urlOrigin
      reqOrigin).2.status = 201 ∧
    (createPixel s none id accessToken createdAt urlOrigin reqOrigin).2.body =
      BodyVal.createJson
        { id := id, createdAt := createdAt,
          pixelUrl := urlOrigin ++ "/pixel/" ++ id ++ ".gif",
          eventsUrl :=
            urlOrigin ++ "/api/pixels/" ++ id ++ "?token=" ++ accessToken,
          accessToken := accessToken } ∧
    ∃ m, loadMeta
        (createPixel s none id accessToken createdAt urlOrigin reqOrigin).1
        id = some m ∧ m.label = none ∧ m.metadata = none := by
  refine ⟨rfl, rfl, rfl, ?_⟩
  exact ⟨_, loadMeta_kvPut_same s id _, rfl, rfl⟩

/-! ## Claim C9 -/

theorem truncate_some_ne_empty (v : Option String) (max : Nat) (u : String)
    (h : truncate v max = some u) : u ≠ "" := by
  cases v with
  | none => simp [truncate] at h
  | some w =>
    by_cases hw : w = ""
    · simp [truncate, hw] at h
    · by_cases hl : w.length > max
      · simp only [truncate, if_neg hw, if_pos hl, Option.some.injEq] at h
        intro hu
        rw [hu] at h
        have hlen2 := congrArg String.length h
        rw [String.length_append] at hlen2
        have e1 : ("…" : String).length = 1 := rfl
        have e2 : ("" : String).length = 0 := rfl
        rw [e1, e2] at hlen2
        omega
      · simp only [truncate, if_neg hw, if_neg hl, Option.some.injEq] at h
        rw [← h]
        exact hw

/-- C9: `truncate` maps the empty string (a present-but-empty header) to
null for every limit, so no recorded event carries an empty-string
`userAgent`, `referer` or `language`. -/
theorem c9_no_empty_header_fields :
    (∀ max : Nat, truncate (some "") max = none) ∧
    (∀ (now : String) (r : RequestCtx),
      (buildEventRecord now r).userAgent ≠ some "" ∧
      (buildEventRecord now r).referer ≠ some "" ∧
      (buildEventRecord now r).language ≠ some "") := by
  refine ⟨fun max => rfl, fun now r => ⟨?_, ?_, ?_⟩⟩
  · exact fun h => truncate_some_ne_empty r.userAgent 256 "" h rfl
  · exact fun h => truncate_some_ne_empty r.referer 256 "" h rfl
  · exact fun h => truncate_some_ne_empty r.language 32 "" h rfl

/-- Witness for C9: concrete header values, including a present-but-empty
user agent. -/
theorem c9_no_empty_header_fields_witness :
    truncate (some "") 256 = none ∧
    (buildEventRecord "t"
      { emptyReq with userAgent := some "" }).userAgent ≠ some "" :=
  ⟨c9_no_empty_header_fields.1 256,
   (c9_no_empty_header_fields.2 "t" { emptyReq with userAgent := some "" }).1⟩

/-! ## Claim C10 -/

/-- C10, counterexample: for the id `"a.gif"` — which itself ends in the
suffix — `/pixel/a.gif` and `/pixel/a.gif.gif` resolve to different pixels
(`"a"` versus `"a.gif"`), because only one trailing `.gif` is stripped. -/
theorem c10_counterexample :
    resolvePixelId "/pixel/a.gif" ≠ resolvePixelId "/pixel/a.gif.gif" ∧
    resolvePixelId "/pixel/a.gif" = "a" ∧
    resolvePixelId "/pixel/a.gif.gif" = "a.gif" := by
  decide

/-- C10 (amended): for every id that does not itself end in a
case-insensitive `.gif`, appending any case variant of `.gif` leaves the
resolved pixel unchanged, hence the same metadata key and the same
event-namespace prefix. -/
theorem c10_gif_suffix_amended (id suffix : String)
    (hid : (id.data.drop (id.data.length - 4)).map Char.toLower ≠ ".gif".data)
    (hsuf : suffix.data.map Char.toLower = ".gif".data) :
    stripGifSuffix (id ++ suffix) = id ∧
    stripGifSuffix id = id ∧
    metaKey (stripGifSuffix (id ++ suffix)) = metaKey (stripGifSuffix id) ∧
    eventKeyPrefix (stripGifSuffix (id ++ suffix)) =
      eventKeyPrefix (stripGifSuffix id) := by
  have hlen : suffix.data.length = 4 := by
    have := congrArg List.length hsuf
    simpa using this
  have h1 : stripGifSuffix (id ++ suffix) = id := by
    unfold stripGifSuffix
    rw [String.data_append]
    have hdl : (id.data ++ suffix.data).length - 4 = id.data.length := by
      simp [List.length_append, hlen]
    rw [hdl, List.drop_left, List.take_left, hsuf]
    simp
  have h2 : stripGifSuffix id = id := by
    unfold stripGifSuffix
    rw [if_neg hid]
  exact ⟨h1, h2, by rw [h1, h2], by rw [h1, h2]⟩

/-- Witness for C10: id `"abc"` with the suffix variant `".GIF"`. -/
theorem c10_gif_suffix_amended_witness :
    stripGifSuffix ("abc" ++ ".GIF") = "abc" ∧
    stripGifSuffix "abc" = "abc" ∧
    metaKey (stripGifSuffix ("abc" ++ ".GIF")) =
      metaKey (stripGifSuffix "abc") ∧
    eventKeyPrefix (stripGifSuffix ("abc" ++ ".GIF")) =
      eventKeyPrefix (stripGifSuffix "abc") :=
  c10_gif_suffix_amended "abc" ".GIF" (by decide) (by decide)

/-! ## Claim C7 -/

theorem any_doubleQuotes (l : List Char) (c : Char)
    (h : l.any (fun a => a == c) = true) :
    (doubleQuotes l).any (fun a => a == c) = true := by
  induction l with
  | nil => simp at h
  | cons a as ih =>
    simp only [List.any_cons, Bool.or_eq_true] at h
    by_cases ha : a = '"'
    · subst ha
      rcases h with h | h
      · simp [doubleQuotes, List.any_cons, h]
      · simp [doubleQuotes, List.any_cons, ih h]
    · rcases h with h | h
      · simp [doubleQuotes, ha, List.any_cons, h]
      · simp [doubleQuotes, ha, List.any_cons, ih h]

theorem collapse_doubleQuotes (l : List Char) :
    collapseQuotes (doubleQuotes l) = l := by
  induction l with
  | nil => rfl
  | cons c cs ih =>
    by_cases hc : c = '"'
    · subst hc
      simp only [doubleQuotes, if_pos rfl]
      simpa [collapseQuotes] using ih
    · simp only [doubleQuotes, if_neg hc]
      cases hdq : doubleQuotes cs with
      | nil =>
        have hcs : cs = [] := by
          have h2 := ih
          rw [hdq] at h2
          simpa [collapseQuotes] using h2.symm
        subst hcs
        simp [collapseQuotes]
      | cons d ds =>
        have hcond : ¬(c = '"' ∧ d = '"') := fun hcd => hc hcd.1
        have hstep : collapseQuotes (c :: d :: ds) =
            c :: collapseQuotes (d :: ds) := by
          simp [collapseQuotes, hcond]
        rw [hstep, ← hdq, ih]

/-- C7: for every event field value containing a comma, the CSV escaper
wraps the field in double quotes with embedded quotes doubled, and the
standard CSV unescaping rule (strip enclosing quotes, collapse doubled
quotes) recovers the original string exactly. -/
theorem c7_csv_comma_roundtrip (s : String)
    (h : strContainsChar s ',' = true) :
    escapeCsv (some s) = "\"" ++ String.mk (doubleQuotes s.data) ++ "\"" ∧
    csvUnescape (escapeCsv (some s)) = s := by
  have hne : s ≠ "" := by
    intro he
    rw [he] at h
    simp [strContainsChar] at h
  have hdq : strContainsChar (String.mk (doubleQuotes s.data)) ',' = true := by
    unfold strContainsChar at h ⊢
    exact any_doubleQuotes s.data ',' h
  have h1 : escapeCsv (some s) =
      "\"" ++ String.mk (doubleQuotes s.data) ++ "\"" := by
    simp only [escapeCsv, if_neg hne, hdq, Bool.true_or, if_true]
  refine ⟨h1, ?_⟩
  rw [h1]
  have hdata : ("\"" ++ String.mk (doubleQuotes s.data) ++ "\"").data =
      '"' :: (doubleQuotes s.data ++ ['"']) := by
    rw [String.data_append, String.data_append]
    rfl
  unfold csvUnescape
  rw [hdata]
  have hcond : 2 ≤ ('"' :: (doubleQuotes s.data ++ ['"'])).length ∧
      ('"' :: (doubleQuotes s.data ++ ['"'])).head? = some '"' ∧
      ('"' :: (doubleQuotes s.data ++ ['"'])).getLast? = some '"' := by
    refine ⟨?_, rfl, ?_⟩
    · simp
    · rw [← List.cons_append]
      exact List.getLast?_concat _
  rw [if_pos hcond]
  simp only [List.drop_succ_cons, List.drop_zero, List.dropLast_concat,
             collapse_doubleQuotes]

/-- Witness for C7: a referer value containing both a comma and an embedded
quote. -/
theorem c7_csv_comma_roundtrip_witness :
    escapeCsv (some "https://ex.com/a,b\"c") =
      "\"" ++ String.mk (doubleQuotes ("https://ex.com/a,b\"c").data) ++
        "\"" ∧
    csvUnescape (escapeCsv (some "https://ex.com/a,b\"c")) =
      "https://ex.com/a,b\"c" :=
  c7_csv_comma_roundtrip "https://ex.com/a,b\"c" (by decide)

/-! ## Claim C3 -/

/-- C3: for every creation request, the SHA-256 hex digest of the
`accessToken` returned in the creation response equals the `tokenHash`
stored in the new `PixelMeta`, and — provided the (server-generated, random)
token does not coincidentally occur in the caller-chosen payload strings,
the generated id, the timestamp, or its own digest — the raw token occurs in
no string component of the stored record. -/
theorem c3_token_never_stored (s : Store) (parsed : Option PixelInitPayload)
    (id accessToken createdAt urlOrigin : String) (reqOrigin : Option String)
    (hid : occursIn accessToken id = false)
    (hcr : occursIn accessToken createdAt = false)
    (hpay : ∀ x ∈ payloadStrings (parsed.getD {}),
      occursIn accessToken x = false)
    (hhash : occursIn accessToken (sha256Hex accessToken) = false) :
    ∃ m : PixelMeta,
      loadMeta
        (createPixel s parsed id accessToken createdAt urlOrigin reqOrigin).1
        id = some m ∧
      (createPixel s parsed id accessToken createdAt urlOrigin
        reqOrigin).2.body =
        BodyVal.createJson
          { id := id, createdAt := createdAt,
            pixelUrl := urlOrigin ++ "/pixel/" ++ id ++ ".gif",
            eventsUrl :=
              urlOrigin ++ "/api/pixels/" ++ id ++ "?token=" ++ accessToken,
            accessToken := accessToken } ∧
      sha256Hex accessToken = m.tokenHash ∧
      ∀ x ∈ metaFieldStrings m, occursIn accessToken x = false := by
  refine ⟨_, loadMeta_kvPut_same s id _, rfl, rfl, ?_⟩
  intro x hx
  unfold payloadStrings at hpay
  simp only [metaFieldStrings, List.append_assoc, List.mem_append,
    List.mem_cons, List.not_mem_nil, or_false, Option.toList_none] at hx
  rcases hx with (hx | hx) | hx | hx | hx
  · rw [hx]; exact hid
  · rw [hx]; exact hcr
  · exact hpay x (List.mem_append.mpr (Or.inl hx))
  · exact hpay x (List.mem_append.mpr (Or.inr hx))
  · rw [hx]; exact hhash

/-- Witness for C3: a concrete payload, id and token; the
token-not-in-own-digest hypothesis is checked by evaluating SHA-256. -/
theorem c3_token_never_stored_witness :
    occursIn c3wTok (sha256Hex c3wTok) = false ∧
    (∃ m : PixelMeta,
      loadMeta
        (createPixel [] (some c3wPayload) "abc123" c3wTok
          "2026-01-01T00:00:00.000Z" "https://example.com" none).1
        "abc123" = some m ∧
      (createPixel [] (some c3wPayload) "abc123" c3wTok
        "2026-01-01T00:00:00.000Z" "https://example.com" none).2.body =
        BodyVal.createJson
          { id := "abc123", createdAt := "2026-01-01T00:00:00.000Z",
            pixelUrl := "https://example.com" ++ "/pixel/" ++ "abc123" ++
              ".gif",
            eventsUrl := "https://example.com" ++ "/api/pixels/" ++
              "abc123" ++ "?token=" ++ c3wTok,
            accessToken := c3wTok } ∧
      sha256Hex c3wTok = m.tokenHash ∧
      ∀ x ∈ metaFieldStrings m, occursIn c3wTok x = false) :=
  ⟨by decide,
   c3_token_never_stored [] (some c3wPayload) "abc123" c3wTok
     "2026-01-01T00:00:00.000Z" "https://example.com" none (by decide)
     (by decide) (by decide) (by decide)⟩

/-! ## Claim C6 -/

/-- C6: on an authorized report request, the JSON body is the stored
`PixelMeta` with the `tokenHash` field removed (`SafeMeta` has no such
field; every other field is preserved) together with the event list sorted
by timestamp ascending, and the CSV body is built from the events alone —
it does not depend on the metadata record at all, so it can never contain
the token hash. -/
theorem c6_report_sanitized (getTime : String → Int) (s : Store)
    (pathname : String) (t : String) (format reqOrigin : Option String)
    (id : String) (meta : PixelMeta)
    (hid : (pathSegments pathname).get? 2 = some id)
    (hmeta : loadMeta s id = some meta)
    (hne : t ≠ "")
    (hhash : sha256Hex t = meta.tokenHash) :
    (format ≠ some "csv" →
      getPixelReport getTime s pathname (some t) format reqOrigin =
        { status := 200, headers := jsonResponseHeaders reqOrigin,
          body := BodyVal.reportJson (sanitizeMeta meta)
                    (loadEvents getTime s id) }) ∧
    (getPixelReport getTime s pathname (some t) (some "csv") reqOrigin =
      { status := 200,
        headers := [("content-type", "text/csv;charset=utf-8"),
                    ("content-disposition",
                     "attachment; filename=\"" ++ id ++ "-events.csv\"")] ++
                   corsHeaders reqOrigin,
        body := BodyVal.csv (buildCsv meta (loadEvents getTime s id)) }) ∧
    (sanitizeMeta meta).id = meta.id ∧
    (sanitizeMeta meta).createdAt = meta.createdAt ∧
    (sanitizeMeta meta).label = meta.label ∧
    (sanitizeMeta meta).metadata = meta.metadata ∧
    (sanitizeMeta meta).openCount = meta.openCount ∧
    (sanitizeMeta meta).lastOpenedAt = meta.lastOpenedAt ∧
    (loadEvents getTime s id).Pairwise
      (fun a b => getTime a.timestamp ≤ getTime b.timestamp) ∧
    (∀ meta' : PixelMeta, buildCsv meta' (loadEvents getTime s id) =
      buildCsv meta (loadEvents getTime s id)) := by
  have hid' : (pathSegments pathname)[2]? = some id := by simpa using hid
  refine ⟨?_, ?_, rfl, rfl, rfl, rfl, rfl, rfl, ?_, fun meta' => rfl⟩
  · intro hfmt
    simp [getPixelReport, hid', hmeta, hne, hhash, hfmt]
  · simp [getPixelReport, hid', hmeta, hne, hhash]
  · simp only [loadEvents]
    refine List.Pairwise.imp ?_ (List.sorted_mergeSort ?_ ?_ _)
    · intro a b hab
      simpa using hab
    · intro a b c hab hbc
      simp only [decide_eq_true_eq] at hab hbc ⊢
      exact le_trans hab hbc
    · intro a b
      simp only [Bool.or_eq_true, decide_eq_true_eq]
      exact Int.le_total _ _

/-- Witness for C6: a concrete store with one pixel and one event,
queried with the matching token. -/
theorem c6_report_sanitized_witness :
    (some "json" ≠ some "csv" →
      getPixelReport (fun _ => 0) c6wStore "/api/pixels/abc" (some "tok")
        (some "json") none =
        { status := 200, headers := jsonResponseHeaders none,
          body := BodyVal.reportJson (sanitizeMeta c6wMeta)
                    (loadEvents (fun _ => 0) c6wStore "abc") }) ∧
    (getPixelReport (fun _ => 0) c6wStore "/api/pixels/abc" (some "tok")
      (some "csv") none =
      { status := 200,
        headers := [("content-type", "text/csv;charset=utf-8"),
                    ("content-disposition",
                     "attachment; filename=\"" ++ "abc" ++
                       "-events.csv\"")] ++ corsHeaders none,
        body := BodyVal.csv
          (buildCsv c6wMeta (loadEvents (fun _ => 0) c6wStore "abc")) }) ∧
    (sanitizeMeta c6wMeta).id = c6wMeta.id ∧
    (sanitizeMeta c6wMeta).createdAt = c6wMeta.createdAt ∧
    (sanitizeMeta c6wMeta).label = c6wMeta.label ∧
    (sanitizeMeta c6wMeta).metadata = c6wMeta.metadata ∧
    (sanitizeMeta c6wMeta).openCount = c6wMeta.openCount ∧
    (sanitizeMeta c6wMeta).lastOpenedAt = c6wMeta.lastOpenedAt ∧
    (loadEvents (fun _ => 0) c6wStore "abc").Pairwise
      (fun _ _ => (0 : Int) ≤ 0) ∧
    (∀ meta' : PixelMeta,
      buildCsv meta' (loadEvents (fun _ => 0) c6wStore "abc") =
        buildCsv c6wMeta (loadEvents (fun _ => 0) c6wStore "abc")) :=
  c6_report_sanitized (fun _ => 0) c6wStore "/api/pixels/abc" "tok"
    (some "json") none "abc" c6wMeta (by decide) rfl (by decide) rfl

end Pixie
